import Mathlib

/-!
Shallow embedding of the rabbitmq user-provisioning saga (auth-service and
user-service).  Pure Lean functions mirror the Python source: the message
handlers in app/messaging, the crud layer, the broker connect retry loop and
the HTTP create_user endpoint.  Machine randomness (uuid4) and wall-clock time
are passed in as explicit parameters; storage exceptions are modelled by
explicit fault oracles; sessions follow flush/commit/rollback semantics by
building the committed state only at the commit points of the source.
-/

/-- Lowercase a string, mirroring the Python str.lower call in the error
classifier of user_handlers.py. -/
def str_lower (s : String) : String := String.mk (s.data.map Char.toLower)

/-- Character-list prefix test, used to build the substring test below. -/
def chars_pre : List Char → List Char → Bool
  | [], _ => true
  | _ :: _, [] => false
  | a :: as, b :: bs => a == b && chars_pre as bs

/-- Character-list contiguous-substring test. -/
def chars_sub (needle : List Char) : List Char → Bool
  | [] => needle.isEmpty
  | c :: t => chars_pre needle (c :: t) || chars_sub needle t

/-- Substring test on strings, modelling the Python expression a in b on str. -/
def str_contains (hay needle : String) : Bool := chars_sub needle.data hay.data

/-- UserCreationStatus enum from app/schemas/message.py (both services). -/
inductive UserCreationStatus where
  | success
  | duplicate_username
  | duplicate_email
  | database_error
  | validation_error
  | unknown_error
deriving DecidableEq

/-- Error classification of the except branch of handle_user_create_message in
user-service app/messaging/user_handlers.py: substring matching on the
lowercased exception text. -/
def classify_error (e : String) : UserCreationStatus :=
  let s := str_lower e
  if str_contains s "duplicate username" then .duplicate_username
  else if str_contains s "duplicate email" then .duplicate_email
  else if str_contains s "database" then .database_error
  else if str_contains s "validation" then .validation_error
  else .unknown_error

/-- Queue name USER_CREATE_QUEUE from app/core/rabbitmq.py. -/
def USER_CREATE_QUEUE : String := "user.create"

/-- Queue name USER_CREATED_QUEUE from app/core/rabbitmq.py. -/
def USER_CREATED_QUEUE : String := "user.created"

/-- Row of the processed_messages table (models.py of either service), the
dedup ledger.  The result_data JSON payload is typed per service via ρ. -/
structure ProcessedMessage (ρ : Type) where
  message_id : Nat
  source_queue : String
  status : String
  result_data : Option ρ
deriving DecidableEq

/-- check_message_processed from crud.py (identical in both services): select
the first ledger row matching message_id and source_queue. -/
def check_message_processed {ρ : Type} (ledger : List (ProcessedMessage ρ))
    (message_id : Nat) (source_queue : String) : Option (ProcessedMessage ρ) :=
  ledger.find? (fun pm => pm.message_id == message_id && pm.source_queue == source_queue)

/-- save_processed_message from crud.py (identical in both services): add a new
ledger row holding the serialized result payload. -/
def save_processed_message {ρ : Type} (ledger : List (ProcessedMessage ρ)) (message_id : Nat)
    (source_queue : String) (status : String) (result_data : Option ρ) :
    List (ProcessedMessage ρ) :=
  ledger ++ [{ message_id := message_id, source_queue := source_queue,
               status := status, result_data := result_data }]

/-- String of the storage-level unique-violation error raised when a ledger
insert hits the unique constraint on processed_messages.message_id. -/
def UNIQUE_VIOLATION : String :=
  "duplicate key value violates unique constraint ix_processed_messages_message_id"

/-- Storage-layer insert into processed_messages honouring the unique=True
constraint declared on ProcessedMessage.message_id in auth-service
app/models.py: a second row with an already-present message_id is rejected. -/
def insert_processed_message {ρ : Type} (tbl : List (ProcessedMessage ρ))
    (pm : ProcessedMessage ρ) : Except String (List (ProcessedMessage ρ)) :=
  if tbl.any (fun q => q.message_id == pm.message_id) then .error UNIQUE_VIOLATION
  else .ok (tbl ++ [pm])

/-- Canonical user entity owned by user-service (the User model imported by
user-service app/crud.py). -/
structure User where
  id : Nat
  username : String
deriving DecidableEq

/-- UserCreateRequest message from app/schemas/message.py, restricted to the
fields the handlers read. -/
structure UserCreateRequest where
  message_id : Nat
  username : String
deriving DecidableEq

/-- UserCreatedResponse message from app/schemas/message.py, restricted to the
fields the handlers read. -/
structure UserCreatedResponse where
  message_id : Nat
  request_id : Nat
  status : UserCreationStatus
  error_message : Option String
  user_id : Option Nat
  username : String
deriving DecidableEq

/-- Shape of the result_data JSON dict written by the user-service handler:
keys user_id, status on success and error, status on failure.  Absent keys are
none. -/
structure RDataU where
  user_id : Option Nat
  status : Option UserCreationStatus
  error : Option String
deriving DecidableEq

/-- Dedup ledger row of user-service. -/
abbrev PMsgU := ProcessedMessage RDataU

/-- Durable storage of user-service: users table plus processed_messages. -/
structure UDB where
  users : List User
  ledger : List PMsgU
deriving DecidableEq

/-- Modelled from the spec: user-service app/models.py is not present under
src, so the constraints of the User model are taken from the spec, which in
Scenario 3 and the error taxonomy of section 7 requires that creating a
canonical user with a username that already exists in the provisioning store
fails and is classified as duplicate-username.  Creation itself (crud.create:
add then flush) otherwise yields a row with the given fresh id. -/
def user_create (users : List User) (username : String) (freshId : Nat) :
    Except String User :=
  if users.any (fun u => u.username == username) then
    .error "duplicate username: users.username unique constraint violated"
  else .ok { id := freshId, username := username }

/-- Replay reconstruction of the found branch of handle_user_create_message:
restore user_id and status from the stored result_data when the keys are
present, then force the success status when the ledger row itself recorded
success. -/
def replay_response (pm : PMsgU) (response0 : UserCreatedResponse) : UserCreatedResponse :=
  let r1 :=
    match pm.result_data with
    | some rd =>
        let ra := match rd.user_id with
          | some u => { response0 with user_id := some u }
          | none => response0
        match rd.status with
        | some s => { ra with status := s }
        | none => ra
    | none => response0
  if pm.status = "success" then { r1 with status := .success } else r1

/-- Database session block of handle_user_create_message (user_handlers.py):
dedup check, replay reconstruction on a hit, otherwise create the user and the
success ledger row and commit both together; on an exception roll back and
commit an error ledger row in a separate transaction.  createFault injects an
exception at the user creation flush, ledgerFault injects an exception at any
processed_messages flush of this delivery (for example the unique-constraint
rejection under a concurrent redelivery).  Returns the committed state and the
response the session block leaves for publishing. -/
def user_session_work (db : UDB) (request : UserCreateRequest) (freshUserId : Nat)
    (createFault ledgerFault : Option String) (response0 : UserCreatedResponse) :
    UDB × UserCreatedResponse :=
  match check_message_processed db.ledger request.message_id USER_CREATE_QUEUE with
  | some pm => (db, replay_response pm response0)
  | none =>
      let createRes : Except String User :=
        match createFault with
        | some e => .error e
        | none => user_create db.users request.username freshUserId
      match createRes with
      | .ok u =>
          match ledgerFault with
          | some e =>
              let rFail := { response0 with status := .success, user_id := some u.id }
              (db, { rFail with status := classify_error e, error_message := some e })
          | none =>
              let rd : RDataU := { user_id := some u.id, status := some .success, error := none }
              ({ users := db.users ++ [u],
                 ledger := save_processed_message db.ledger request.message_id
                   USER_CREATE_QUEUE "success" (some rd) },
               { response0 with status := .success, user_id := some u.id })
      | .error e =>
          let st := classify_error e
          let rErr := { response0 with status := st, error_message := some e }
          match ledgerFault with
          | some _ => (db, rErr)
          | none =>
              let rd : RDataU := { user_id := none, status := some st, error := some e }
              ({ users := db.users,
                 ledger := save_processed_message db.ledger request.message_id
                   USER_CREATE_QUEUE "error" (some rd) },
               rErr)

/-- Try block of handle_user_create_message: decode (raw already carries the
decode outcome), initialize the response, run the session block, then publish
the response to user.created.  pub is the outcome of publish_message: a raised
exception (connect failure) or a boolean success flag.  The committed database
state is returned even when a later step raises. -/
def response_init (respMsgId : Nat) (request : UserCreateRequest) : UserCreatedResponse :=
  { message_id := respMsgId, request_id := request.message_id,
    status := .unknown_error, error_message := none, user_id := none,
    username := request.username }

/-- Error completion left by the except branch of the provisioning handler:
classified status, exception text, and whatever user_id was set before the
exception was raised. -/
def error_resp (rm : Nat) (req : UserCreateRequest) (e : String) (uid : Option Nat) :
    UserCreatedResponse :=
  { message_id := rm, request_id := req.message_id, status := classify_error e,
    error_message := some e, user_id := uid, username := req.username }

def user_try (raw : Except String UserCreateRequest) (db : UDB)
    (freshUserId respMsgId : Nat) (createFault ledgerFault : Option String)
    (pub : Except String Bool) : UDB × Except String (Option UserCreatedResponse) :=
  match raw with
  | .error e => (db, .error e)
  | .ok request =>
      let p := user_session_work db request freshUserId createFault ledgerFault
        (response_init respMsgId request)
      match pub with
      | .error e => (p.1, .error e)
      | .ok true => (p.1, .ok (some p.2))
      | .ok false => (p.1, .ok none)

/-- Full body of handle_user_create_message inside the acknowledging scope: the
try block together with the except clauses that catch JSONDecodeError and every
other Exception, logging and falling through. -/
def user_handler_body (raw : Except String UserCreateRequest) (db : UDB)
    (freshUserId respMsgId : Nat) (createFault ledgerFault : Option String)
    (pub : Except String Bool) : Except String (UDB × Option UserCreatedResponse) :=
  match user_try raw db freshUserId respMsgId createFault ledgerFault pub with
  | (db1, .ok p) => .ok (db1, p)
  | (db1, .error _) => .ok (db1, none)

/-- Semantics of the aio-pika message.process scope: acknowledge the message
exactly when the wrapped body completes without raising. -/
def message_process {α : Type} (body : Except String α) (onRaise : α) : α × Bool :=
  match body with
  | .ok a => (a, true)
  | .error _ => (onRaise, false)

/-- handle_user_create_message from user-service app/messaging/user_handlers.py.
Returns the committed user-service state, the response published to
user.created if any, and whether the delivery was acknowledged. -/
def handle_user_create_message (raw : Except String UserCreateRequest) (db : UDB)
    (freshUserId respMsgId : Nat) (createFault ledgerFault : Option String)
    (pub : Except String Bool) : UDB × Option UserCreatedResponse × Bool :=
  let r := message_process
    (user_handler_body raw db freshUserId respMsgId createFault ledgerFault pub) (db, none)
  (r.1.1, r.1.2, r.2)

/-- Ledger row written by the success path of the provisioning handler for
request message m creating canonical user fid. -/
def successEntry (m fid : Nat) : PMsgU :=
  { message_id := m, source_queue := USER_CREATE_QUEUE, status := "success",
    result_data := some { user_id := some fid, status := some .success, error := none } }

/-- Ledger row written by the error path of the provisioning handler. -/
def errorEntry (m : Nat) (st : UserCreationStatus) (e : String) : PMsgU :=
  { message_id := m, source_queue := USER_CREATE_QUEUE, status := "error",
    result_data := some { user_id := none, status := some st, error := some e } }

/-- User-service state after the first successful processing of a creation
request with message id m for the given username, creating user fid. -/
def udbAfter (db : UDB) (m fid : Nat) (username : String) : UDB :=
  { users := db.users ++ [{ id := fid, username := username }],
    ledger := db.ledger ++ [successEntry m fid] }

/-- Success completion published for request m, canonical user fid, under a
fresh envelope message id rm. -/
def successResp (rm m fid : Nat) (username : String) : UserCreatedResponse :=
  { message_id := rm, request_id := m, status := .success, error_message := none,
    user_id := some fid, username := username }

/-- Identity record of auth-service (AuthUser in app/models.py): user_id is the
nullable canonical identifier. -/
structure AuthUser where
  id : Nat
  username : String
  user_id : Option Nat
deriving DecidableEq

/-- Shape of the result_data JSON dict written by the auth-service handler
across its three write sites; absent keys are none. -/
structure RDataA where
  username : Option String
  user_id : Option Nat
  updated : Option Bool
  error : Option String
  status : Option UserCreationStatus
  error_message : Option (Option String)
deriving DecidableEq

/-- Dedup ledger row of auth-service. -/
abbrev PMsgA := ProcessedMessage RDataA

/-- Durable storage of auth-service: auth_users table plus processed_messages. -/
structure ADB where
  auth_users : List AuthUser
  ledger : List PMsgA
deriving DecidableEq

/-- Ledger row written by the identity completion handler after successfully
attaching canonical id v for the given username under completion message m. -/
def authSuccessEntry (m v : Nat) (username : String) : PMsgA :=
  { message_id := m, source_queue := USER_CREATED_QUEUE, status := "success",
    result_data := some { username := some username, user_id := some v,
                          updated := some true, error := none, status := none,
                          error_message := none } }

/-- update_user_id from auth-service app/crud.py: select the first AuthUser
with the given username, set its user_id and flush; returns the updated row if
one was found, together with the resulting table. -/
def update_user_id : List AuthUser → String → Nat → Option AuthUser × List AuthUser
  | [], _, _ => (none, [])
  | a :: t, username, v =>
      if a.username = username then
        (some { a with user_id := some v }, { a with user_id := some v } :: t)
      else
        let p := update_user_id t username v
        (p.1, a :: p.2)

/-- Database session block of handle_user_created_message for a success
response carrying a user_id: dedup check, skip on a hit, otherwise update the
identity record and save the ledger row, committing both together; on an
exception roll back and commit an error ledger row in a separate transaction.
authFault injects an exception into the update-and-save block. -/
def auth_session_work (db : ADB) (response : UserCreatedResponse) (uid : Nat)
    (authFault : Option String) : ADB :=
  match check_message_processed db.ledger response.message_id USER_CREATED_QUEUE with
  | some _ => db
  | none =>
      match authFault with
      | some e =>
          let rd : RDataA := { username := some response.username, user_id := none,
                               updated := none, error := some e, status := none,
                               error_message := none }
          let lg := save_processed_message db.ledger response.message_id
            USER_CREATED_QUEUE "error" (some rd)
          { db with ledger := lg }
      | none =>
          let p := update_user_id db.auth_users response.username uid
          let st := if p.1.isSome then "success" else "error"
          let rd : RDataA := { username := some response.username, user_id := some uid,
                               updated := some p.1.isSome, error := none, status := none,
                               error_message := none }
          let lg := save_processed_message db.ledger response.message_id
            USER_CREATED_QUEUE st (some rd)
          { auth_users := p.2, ledger := lg }

/-- Else branch of handle_user_created_message for a response that is not a
success or carries no user_id: record an error ledger row only; an exception
rolls the row back. -/
def auth_else_branch (db : ADB) (response : UserCreatedResponse)
    (authFault : Option String) : ADB :=
  match authFault with
  | some _ => db
  | none =>
      let rd : RDataA := { username := some response.username, user_id := none,
                           updated := none, error := none,
                           status := some response.status,
                           error_message := some response.error_message }
      let lg := save_processed_message db.ledger response.message_id
        USER_CREATED_QUEUE "error" (some rd)
      { db with ledger := lg }

/-- Try block of handle_user_created_message: decode, then branch on whether
the response is a success carrying a user_id. -/
def auth_try (raw : Except String UserCreatedResponse) (db : ADB)
    (authFault : Option String) : ADB × Except String Unit :=
  match raw with
  | .error e => (db, .error e)
  | .ok response =>
      match response.status, response.user_id with
      | .success, some uid => (auth_session_work db response uid authFault, .ok ())
      | _, _ => (auth_else_branch db response authFault, .ok ())

/-- Full body of handle_user_created_message inside the acknowledging scope:
the try block together with the catch-all except clauses. -/
def auth_handler_body (raw : Except String UserCreatedResponse) (db : ADB)
    (authFault : Option String) : Except String ADB :=
  match auth_try raw db authFault with
  | (db1, .ok _) => .ok db1
  | (db1, .error _) => .ok db1

/-- handle_user_created_message from auth-service app/messaging/auth_handlers.py.
Returns the committed auth-service state and whether the delivery was
acknowledged. -/
def handle_user_created_message (raw : Except String UserCreatedResponse) (db : ADB)
    (authFault : Option String) : ADB × Bool :=
  message_process (auth_handler_body raw db authFault) db

/-- Retry loop of RabbitMQClient.connect in app/core/rabbitmq.py, from a given
attempt index with a given number of attempts remaining: on failure of a
non-final attempt sleep two to the power of the attempt index and retry; the
final failure re-raises.  Returns the sleeps performed and, when the broker
became reachable, the one-based number of the successful attempt. -/
def connect_loop (reachable : Nat → Bool) (attempt : Nat) : Nat → List Nat × Option Nat
  | 0 => ([], none)
  | remaining + 1 =>
      if reachable attempt then ([], some (attempt + 1))
      else if remaining == 0 then ([], none)
      else
        let p := connect_loop reachable (attempt + 1) remaining
        (2 ^ attempt :: p.1, p.2)

/-- RabbitMQClient.connect: for attempt in range(5), with exponential backoff
sleeps between failed attempts; none means the fifth failure is raised to the
caller (fatal). -/
def connect (reachable : Nat → Bool) : List Nat × Option Nat :=
  connect_loop reachable 0 5

/-- Identity-record creation from auth-service app/crud.py together with the
unique=True constraint on AuthUser.username in app/models.py: the flush of a
second row with an existing username raises. -/
def create (auth_users : List AuthUser) (username : String) (freshId : Nat) :
    Except String AuthUser :=
  if auth_users.any (fun a => a.username == username) then
    .error "duplicate key value violates unique constraint on auth_users.username"
  else .ok { id := freshId, username := username, user_id := none }

/-- Observable step of the create_user HTTP endpoint, in execution order. -/
inductive HttpEvent where
  | publish (message_id : Nat) (username : String)
  | insertRecord (id : Nat) (username : String)
deriving DecidableEq

/-- create_user endpoint from auth-service app/main.py: build the
UserCreateRequest, publish it to user.create (a publish failure is logged and
swallowed: pub as ok false), then create the local identity record; a raise
from either publish-connect or the record flush surfaces as an HTTP error with
the session rolled back.  Returns the committed state, the list of messages
actually delivered to the broker, the HTTP outcome and the ordered trace of
observable steps. -/
def create_user (db : ADB) (username : String) (reqMsgId freshAuthId : Nat)
    (pub : Except String Bool) :
    ADB × List UserCreateRequest × Except String AuthUser × List HttpEvent :=
  let req : UserCreateRequest := { message_id := reqMsgId, username := username }
  match pub with
  | .error e => (db, [], .error e, [HttpEvent.publish reqMsgId username])
  | .ok ok =>
      let delivered := if ok then [req] else []
      match create db.auth_users username freshAuthId with
      | .ok au =>
          ({ db with auth_users := db.auth_users ++ [au] }, delivered, .ok au,
           [HttpEvent.publish reqMsgId username, HttpEvent.insertRecord freshAuthId username])
      | .error e =>
          (db, delivered, .error e, [HttpEvent.publish reqMsgId username])

/-- Whole-system state: both durable stores plus the multisets of messages ever
accepted by the broker on each queue.  At-least-once delivery is modelled by
letting any element be delivered again at any time. -/
structure Sys where
  authDb : ADB
  userDb : UDB
  createQ : List UserCreateRequest
  createdQ : List UserCreatedResponse
deriving DecidableEq

/-- Operations of the core: an external creation request through the HTTP
endpoint, a (re)delivery of a queued creation request to the provisioning
handler, and a (re)delivery of a queued completion to the identity handler. -/
inductive SysOp where
  | http (username : String) (reqMsgId freshAuthId : Nat) (pub : Except String Bool)
  | dreq (i freshUserId respMsgId : Nat) (createFault ledgerFault : Option String)
      (pub : Except String Bool)
  | dcomp (i : Nat) (authFault : Option String)

/-- Effect of one operation on the whole system. -/
def applyOp (s : Sys) : SysOp → Sys
  | .http username m fid pub =>
      let r := create_user s.authDb username m fid pub
      { s with authDb := r.1, createQ := s.createQ ++ r.2.1 }
  | .dreq i fid rm cf lf pub =>
      match s.createQ.get? i with
      | none => s
      | some req =>
          let r := handle_user_create_message (.ok req) s.userDb fid rm cf lf pub
          { s with userDb := r.1,
                   createdQ := s.createdQ ++ (match r.2.1 with
                     | some resp => [resp]
                     | none => []) }
  | .dcomp i af =>
      match s.createdQ.get? i with
      | none => s
      | some resp =>
          { s with authDb := (handle_user_created_message (.ok resp) s.authDb af).1 }

/-- Environment-freshness side conditions: uuid4 identifiers of a new request
message and of a new identity record do not collide with ones already used. -/
def validOp (s : Sys) : SysOp → Prop
  | .http _ m fid _ =>
      (∀ r ∈ s.createQ, r.message_id ≠ m) ∧ (∀ a ∈ s.authDb.auth_users, a.id ≠ fid)
  | .dreq _ _ _ _ _ _ => True
  | .dcomp _ _ => True

/-- Empty initial system. -/
def sys0 : Sys :=
  { authDb := { auth_users := [], ledger := [] },
    userDb := { users := [], ledger := [] },
    createQ := [], createdQ := [] }

/-- States reachable by valid operation sequences from the empty system. -/
inductive Reach : Sys → Prop
  | init : Reach sys0
  | step {s : Sys} (op : SysOp) : Reach s → validOp s op → Reach (applyOp s op)

/-- Invariant carried by every reachable system state: canonical usernames are
pairwise distinct (spec-modelled constraint), identity-record ids and request
message ids are pairwise distinct (uuid freshness plus the username unique
constraint), every success completion on the wire and every set canonical id
on an identity record point at the canonical user of that username, every
success ledger row of the provisioning side reconstructs to the canonical user
of its request, and no error ledger row carries a success result status. -/
def SysInv (s : Sys) : Prop :=
  List.Pairwise (fun u v : User => u.username ≠ v.username) s.userDb.users ∧
  List.Pairwise (fun a b : AuthUser => a.id ≠ b.id) s.authDb.auth_users ∧
  List.Pairwise (fun r r2 : UserCreateRequest => r.message_id ≠ r2.message_id) s.createQ ∧
  (∀ resp ∈ s.createdQ, resp.status = .success →
      ∃ v, resp.user_id = some v ∧
        ∃ cu ∈ s.userDb.users, cu.username = resp.username ∧ cu.id = v) ∧
  (∀ a ∈ s.authDb.auth_users, ∀ v, a.user_id = some v →
      ∃ cu ∈ s.userDb.users, cu.username = a.username ∧ cu.id = v) ∧
  (∀ pm ∈ s.userDb.ledger, pm.source_queue = USER_CREATE_QUEUE ∧
      (pm.status = "success" →
        ∃ rd, pm.result_data = some rd ∧ ∃ v, rd.user_id = some v ∧
          ∃ req ∈ s.createQ, req.message_id = pm.message_id ∧
            ∃ cu ∈ s.userDb.users, cu.username = req.username ∧ cu.id = v) ∧
      (pm.status ≠ "success" →
        ∀ rd, pm.result_data = some rd → rd.status ≠ some .success))

/-! Helper lemmas. -/

/-- Searching an extended ledger behaves like searching the extension once the
original ledger has no hit. -/
theorem find?_append_none {α : Type} (p : α → Bool) (l1 l2 : List α)
    (h : l1.find? p = none) : (l1 ++ l2).find? p = l2.find? p := by
  rw [List.find?_append, h, Option.none_or]

/-- The error classifier never yields the success status. -/
theorem classify_error_ne_success (e : String) : classify_error e ≠ .success := by
  unfold classify_error
  dsimp only
  split_ifs <;> simp

/-- In a list whose elements have pairwise distinct keys, equal keys force
equal elements. -/
theorem pairwise_key_eq {α β : Type} (f : α → β) :
    ∀ l : List α, List.Pairwise (fun x y => f x ≠ f y) l →
      ∀ a ∈ l, ∀ b ∈ l, f a = f b → a = b
  | [], _, a, ha, _, _, _ => absurd ha (List.not_mem_nil a)
  | c :: t, hp, a, ha, b, hb, hfab => by
      rcases List.pairwise_cons.mp hp with ⟨hc, ht⟩
      rcases List.mem_cons.mp ha with rfl | ha2
      · rcases List.mem_cons.mp hb with rfl | hb2
        · rfl
        · exact absurd hfab (hc b hb2)
      · rcases List.mem_cons.mp hb with rfl | hb2
        · exact absurd hfab.symm (hc a ha2)
        · exact pairwise_key_eq f t ht a ha2 b hb2 hfab

/-- Characterization of update_user_id: either no row matches the username and
the table is untouched, or the table splits around the first matching row and
exactly that row receives the new user_id. -/
theorem update_user_id_cases (l : List AuthUser) (un : String) (v : Nat) :
    (update_user_id l un v = (none, l) ∧ ∀ x ∈ l, x.username ≠ un)
    ∨ ∃ pre b post, l = pre ++ b :: post ∧ b.username = un ∧ (∀ x ∈ pre, x.username ≠ un)
        ∧ update_user_id l un v
            = (some { b with user_id := some v }, pre ++ { b with user_id := some v } :: post) := by
  induction l with
  | nil => exact Or.inl ⟨rfl, by simp⟩
  | cons a t ih =>
      by_cases h : a.username = un
      · exact Or.inr ⟨[], a, t, by simp, h, by simp, by simp [update_user_id, h]⟩
      · rcases ih with ⟨he, hall⟩ | ⟨pre, b, post, hsplit, hb, hpre, heq⟩
        · refine Or.inl ⟨by simp [update_user_id, h, he], ?_⟩
          intro x hx
          rcases List.mem_cons.mp hx with rfl | hx2
          · exact h
          · exact hall x hx2
        · refine Or.inr ⟨a :: pre, b, post, by simp [hsplit], hb, ?_, ?_⟩
          · intro x hx
            rcases List.mem_cons.mp hx with rfl | hx2
            · exact h
            · exact hpre x hx2
          · simp [update_user_id, h, heq]

/-- update_user_id on a table split at the first matching row. -/
theorem update_user_id_found (pre post : List AuthUser) (a : AuthUser) (un : String) (v : Nat)
    (hpre : ∀ b ∈ pre, b.username ≠ un) (ha : a.username = un) :
    update_user_id (pre ++ a :: post) un v
      = (some { a with user_id := some v }, pre ++ { a with user_id := some v } :: post) := by
  induction pre with
  | nil => simp [update_user_id, ha]
  | cons b t ih =>
      have hb : b.username ≠ un := hpre b (List.mem_cons_self b t)
      have ih2 := ih (fun x hx => hpre x (List.mem_cons_of_mem b hx))
      simp [update_user_id, hb, ih2]

/-! Claim theorems. -/

/-- C4: every delivery to either handler, well-formed or malformed, with any
storage, creation, ledger or publish fault, completes the wrapped handler body
without raising, so the acknowledging scope acknowledges the message in every
case and handler failure never triggers redelivery or dead-lettering. -/
theorem always_acked (raw : Except String UserCreateRequest) (db : UDB)
    (freshUserId respMsgId : Nat) (createFault ledgerFault : Option String)
    (pub : Except String Bool) (raw2 : Except String UserCreatedResponse) (adb : ADB)
    (authFault : Option String) :
    (handle_user_create_message raw db freshUserId respMsgId createFault ledgerFault pub).2.2
        = true
    ∧ (handle_user_created_message raw2 adb authFault).2 = true := by
  constructor
  · unfold handle_user_create_message user_handler_body
    rcases h : user_try raw db freshUserId respMsgId createFault ledgerFault pub with ⟨db1, r⟩
    cases r <;> simp [h, message_process]
  · unfold handle_user_created_message auth_handler_body
    rcases h : auth_try raw2 adb authFault with ⟨db1, r⟩
    cases r <;> simp [h, message_process]

/-- C7: full characterization of the connect retry loop: it succeeds on the
first reachable attempt among the five, sleeping 1, 2, 4 and 8 seconds after
the failed attempts before it, and raises (none) after the fifth failed
attempt, having slept 1, 2, 4, 8 seconds; in particular a broker reachable
only on the fifth attempt yields success on attempt 5 after those four
delays. -/
theorem connect_retry_policy (r : Nat → Bool) :
    connect r = (if r 0 then ([], some 1) else
                 if r 1 then ([1], some 2) else
                 if r 2 then ([1, 2], some 3) else
                 if r 3 then ([1, 2, 4], some 4) else
                 if r 4 then ([1, 2, 4, 8], some 5) else ([1, 2, 4, 8], none)) := by
  cases h0 : r 0 <;> cases h1 : r 1 <;> cases h2 : r 2 <;> cases h3 : r 3 <;>
    cases h4 : r 4 <;>
    simp [connect, connect_loop, h0, h1, h2, h3, h4]

/-- C5 (divergence witness): evaluation of the create_user endpoint at a
concrete input shows the observable trace publishes the UserCreationRequested
message before the identity record is inserted, and a second call with the
same username still delivers the request message to the broker even though the
record insert then fails. -/
theorem create_user_publish_precedes_insert :
    create_user { auth_users := [], ledger := [] } "alice" 1 2 (.ok true)
      = ({ auth_users := [{ id := 2, username := "alice", user_id := none }], ledger := [] },
         [{ message_id := 1, username := "alice" }],
         .ok { id := 2, username := "alice", user_id := none },
         [HttpEvent.publish 1 "alice", HttpEvent.insertRecord 2 "alice"])
    ∧ (create_user
         { auth_users := [{ id := 2, username := "alice", user_id := none }], ledger := [] }
         "alice" 3 4 (.ok true)).2.1
        = [{ message_id := 3, username := "alice" }] := by
  constructor
  · rfl
  · rfl

/-- C6 (counterexample): a second concurrent delivery whose ledger insert is
rejected by the storage unique constraint is not treated as already processed:
the handler classifies the rejection text as unknown_error, publishes an
unknown_error completion and rolls everything back. -/
theorem unique_rejection_classified_unknown :
    handle_user_create_message (.ok { message_id := 7, username := "alice" })
        { users := [], ledger := [] } 5 9 none (some UNIQUE_VIOLATION) (.ok true)
      = ({ users := [], ledger := [] },
         some { message_id := 9, request_id := 7, status := .unknown_error,
                error_message := some UNIQUE_VIOLATION, user_id := some 5,
                username := "alice" }, true) := by
  rfl

/-- C6 (amended): the storage layer rejects a ledger insert whose message_id is
already present (the unique constraint on processed_messages.message_id, which
in particular forbids a second entry for the same message id and source
queue); the handler does not recognize that rejection as already processed:
its string-matching classifier maps the rejection text to unknown_error, and
the delivery follows the error path, rolling back and publishing an
unknown_error completion. -/
theorem dedup_insert_rejected_not_treated_as_processed {ρ : Type}
    (tbl : List (ProcessedMessage ρ)) (pm pm2 : ProcessedMessage ρ)
    (hmem : pm2 ∈ tbl) (hid : pm2.message_id = pm.message_id)
    (db : UDB) (req : UserCreateRequest) (fid rm : Nat)
    (hchk : check_message_processed db.ledger req.message_id USER_CREATE_QUEUE = none)
    (hfree : db.users.any (fun u => u.username == req.username) = false) :
    insert_processed_message tbl pm = .error UNIQUE_VIOLATION
    ∧ handle_user_create_message (.ok req) db fid rm none (some UNIQUE_VIOLATION) (.ok true)
        = (db, some { message_id := rm, request_id := req.message_id,
                      status := .unknown_error, error_message := some UNIQUE_VIOLATION,
                      user_id := some fid, username := req.username }, true) := by
  have hcl : classify_error UNIQUE_VIOLATION = .unknown_error := by rfl
  constructor
  · unfold insert_processed_message
    rw [if_pos]
    exact List.any_eq_true.mpr ⟨pm2, hmem, by simp [hid]⟩
  · simp [handle_user_create_message, user_handler_body, user_try, response_init,
          user_session_work, message_process, hchk, user_create, hfree, hcl]

/-- C6 (witness for the amended statement at concrete inputs). -/
theorem dedup_insert_rejected_witness :
    insert_processed_message
        [({ message_id := 7, source_queue := USER_CREATE_QUEUE, status := "success",
            result_data := none } : PMsgU)]
        { message_id := 7, source_queue := USER_CREATE_QUEUE, status := "error",
          result_data := none }
      = .error UNIQUE_VIOLATION
    ∧ handle_user_create_message (.ok { message_id := 3, username := "bob" })
        { users := [], ledger := [] } 5 9 none (some UNIQUE_VIOLATION) (.ok true)
        = ({ users := [], ledger := [] },
           some { message_id := 9, request_id := 3, status := .unknown_error,
                  error_message := some UNIQUE_VIOLATION, user_id := some 5,
                  username := "bob" }, true) :=
  dedup_insert_rejected_not_treated_as_processed
    [{ message_id := 7, source_queue := USER_CREATE_QUEUE, status := "success",
       result_data := none }]
    { message_id := 7, source_queue := USER_CREATE_QUEUE, status := "error",
      result_data := none }
    { message_id := 7, source_queue := USER_CREATE_QUEUE, status := "success",
      result_data := none }
    (List.mem_singleton.mpr rfl) rfl { users := [], ledger := [] }
    { message_id := 3, username := "bob" } 5 9 rfl rfl

/-- C9: a well-decoded completion that is not a success or carries no user_id
never reaches the record update: every identity record, in particular the one
matching the username of the message, is left unchanged, canonicalUserId staying
as it was, for any fault oracle. -/
theorem non_success_completion_preserves_records (resp : UserCreatedResponse) (db : ADB)
    (af : Option String) (hbad : resp.status ≠ .success ∨ resp.user_id = none) :
    (handle_user_created_message (.ok resp) db af).1.auth_users = db.auth_users := by
  have helse : auth_try (.ok resp) db af = (auth_else_branch db resp af, .ok ()) := by
    simp only [auth_try]
    cases hst : resp.status <;> cases hu : resp.user_id <;> try rfl
    exfalso
    rcases hbad with hb | hb
    · exact hb hst
    · rw [hu] at hb; exact Option.noConfusion hb
  unfold handle_user_created_message auth_handler_body
  rw [helse]
  cases af <;> simp [message_process, auth_else_branch]

/-- C9 witness at a concrete duplicate-username completion. -/
theorem non_success_completion_preserves_records_witness :
    (handle_user_created_message
        (.ok { message_id := 21, request_id := 20, status := .duplicate_username,
               error_message := some "duplicate username", user_id := none,
               username := "carol" })
        { auth_users := [{ id := 4, username := "carol", user_id := none }], ledger := [] }
        none).1.auth_users
      = [{ id := 4, username := "carol", user_id := none }] :=
  non_success_completion_preserves_records _ _ _ (Or.inr rfl)

/-- C10: the non-success branch of the identity completion handler does not
merely log: absent a storage fault it commits a dedup ledger row with status
error keyed by the completion message id and the completions queue, leaving
the records untouched. -/
theorem non_success_completion_writes_error_ledger (resp : UserCreatedResponse) (db : ADB)
    (hbad : resp.status ≠ .success ∨ resp.user_id = none) :
    (handle_user_created_message (.ok resp) db none).1.ledger
      = db.ledger
          ++ [{ message_id := resp.message_id, source_queue := USER_CREATED_QUEUE,
                status := "error",
                result_data := some { username := some resp.username, user_id := none,
                                      updated := none, error := none,
                                      status := some resp.status,
                                      error_message := some resp.error_message } }] := by
  have helse : auth_try (.ok resp) db none = (auth_else_branch db resp none, .ok ()) := by
    simp only [auth_try]
    cases hst : resp.status <;> cases hu : resp.user_id <;> try rfl
    exfalso
    rcases hbad with hb | hb
    · exact hb hst
    · rw [hu] at hb; exact Option.noConfusion hb
  unfold handle_user_created_message auth_handler_body
  rw [helse]
  simp [message_process, auth_else_branch, save_processed_message]

/-- C10 witness at a concrete duplicate-username completion. -/
theorem non_success_completion_writes_error_ledger_witness :
    (handle_user_created_message
        (.ok { message_id := 31, request_id := 30, status := .duplicate_username,
               error_message := some "duplicate username", user_id := none,
               username := "dave" })
        { auth_users := [], ledger := [] } none).1.ledger
      = [{ message_id := 31, source_queue := USER_CREATED_QUEUE, status := "error",
           result_data := some { username := some "dave", user_id := none,
                                 updated := none, error := none,
                                 status := some UserCreationStatus.duplicate_username,
                                 error_message := some (some "duplicate username") } }] :=
  non_success_completion_writes_error_ledger _ _ (Or.inl (by simp))

/-- C1: delivering the same creation request twice creates exactly one
canonical user: the first delivery commits the user together with the success
ledger row and publishes a success completion carrying the new canonical id;
the second delivery leaves the store untouched and republishes a completion
reconstructed from the stored result payload with the same canonical id. -/
theorem idempotent_saga_effect (db : UDB) (req : UserCreateRequest) (fid1 rm1 fid2 rm2 : Nat)
    (hchk : check_message_processed db.ledger req.message_id USER_CREATE_QUEUE = none)
    (hfree : db.users.any (fun u => u.username == req.username) = false) :
    handle_user_create_message (.ok req) db fid1 rm1 none none (.ok true)
      = (udbAfter db req.message_id fid1 req.username,
         some (successResp rm1 req.message_id fid1 req.username), true)
    ∧ handle_user_create_message (.ok req) (udbAfter db req.message_id fid1 req.username)
        fid2 rm2 none none (.ok true)
      = (udbAfter db req.message_id fid1 req.username,
         some (successResp rm2 req.message_id fid1 req.username), true) := by
  constructor
  · simp [handle_user_create_message, user_handler_body, user_try, response_init,
          user_session_work, message_process, hchk, user_create, hfree, udbAfter,
          successEntry, successResp, save_processed_message]
  · have hfind : check_message_processed (db.ledger ++ [successEntry req.message_id fid1])
        req.message_id USER_CREATE_QUEUE = some (successEntry req.message_id fid1) := by
      unfold check_message_processed at hchk ⊢
      rw [find?_append_none _ _ _ hchk]
      simp [successEntry]
    simp only [handle_user_create_message, user_handler_body, user_try, user_session_work,
          udbAfter, message_process]
    rw [hfind]
    simp [replay_response, response_init, successEntry, successResp, message_process]

/-- C1 witness at concrete inputs: request 1 for alice delivered twice. -/
theorem idempotent_saga_effect_witness :
    handle_user_create_message (.ok { message_id := 1, username := "alice" })
        { users := [], ledger := [] } 2 3 none none (.ok true)
      = (udbAfter { users := [], ledger := [] } 1 2 "alice",
         some (successResp 3 1 2 "alice"), true)
    ∧ handle_user_create_message (.ok { message_id := 1, username := "alice" })
        (udbAfter { users := [], ledger := [] } 1 2 "alice") 4 5 none none (.ok true)
      = (udbAfter { users := [], ledger := [] } 1 2 "alice",
         some (successResp 5 1 2 "alice"), true) :=
  idempotent_saga_effect { users := [], ledger := [] } { message_id := 1, username := "alice" }
    2 3 4 5 rfl rfl

/-- C8: delivering the same success completion twice sets the canonical id on
the matching identity record once: the first delivery updates the first record
with the username and commits the success ledger row with it; the second
delivery finds the dedup row and leaves the whole store unchanged. -/
theorem idempotent_completion (pre post : List AuthUser) (a : AuthUser) (lg : List PMsgA)
    (resp : UserCreatedResponse) (v : Nat)
    (hst : resp.status = .success) (huid : resp.user_id = some v)
    (hchk : check_message_processed lg resp.message_id USER_CREATED_QUEUE = none)
    (hpre : ∀ b ∈ pre, b.username ≠ resp.username) (ha : a.username = resp.username) :
    handle_user_created_message (.ok resp) { auth_users := pre ++ a :: post, ledger := lg } none
      = ({ auth_users := pre ++ { a with user_id := some v } :: post,
           ledger := lg ++ [authSuccessEntry resp.message_id v resp.username] }, true)
    ∧ handle_user_created_message (.ok resp)
        { auth_users := pre ++ { a with user_id := some v } :: post,
          ledger := lg ++ [authSuccessEntry resp.message_id v resp.username] } none
      = ({ auth_users := pre ++ { a with user_id := some v } :: post,
           ledger := lg ++ [authSuccessEntry resp.message_id v resp.username] }, true) := by
  have hupd := update_user_id_found pre post a resp.username v hpre ha
  constructor
  · simp only [handle_user_created_message, auth_handler_body, auth_try, message_process,
               hst, huid]
    simp only [auth_session_work, hchk]
    rw [hupd]
    simp [authSuccessEntry, save_processed_message]
  · have hfind : check_message_processed (lg ++ [authSuccessEntry resp.message_id v resp.username])
        resp.message_id USER_CREATED_QUEUE
          = some (authSuccessEntry resp.message_id v resp.username) := by
      unfold check_message_processed at hchk ⊢
      rw [find?_append_none _ _ _ hchk]
      simp [authSuccessEntry]
    simp only [handle_user_created_message, auth_handler_body, auth_try, message_process,
               hst, huid]
    simp only [auth_session_work]
    rw [hfind]

/-- C8 witness: completion 11 for record 2 of alice delivered twice. -/
theorem idempotent_completion_witness :
    handle_user_created_message
        (.ok { message_id := 11, request_id := 1, status := .success, error_message := none,
               user_id := some 10, username := "alice" })
        { auth_users := [] ++ { id := 2, username := "alice", user_id := none } :: [],
          ledger := [] } none
      = ({ auth_users := [] ++ { id := 2, username := "alice", user_id := some 10 } :: [],
           ledger := [] ++ [authSuccessEntry 11 10 "alice"] }, true)
    ∧ handle_user_created_message
        (.ok { message_id := 11, request_id := 1, status := .success, error_message := none,
               user_id := some 10, username := "alice" })
        { auth_users := [] ++ { id := 2, username := "alice", user_id := some 10 } :: [],
          ledger := [] ++ [authSuccessEntry 11 10 "alice"] } none
      = ({ auth_users := [] ++ { id := 2, username := "alice", user_id := some 10 } :: [],
           ledger := [] ++ [authSuccessEntry 11 10 "alice"] }, true) :=
  idempotent_completion [] [] { id := 2, username := "alice", user_id := none } []
    { message_id := 11, request_id := 1, status := .success, error_message := none,
      user_id := some 10, username := "alice" } 10 rfl rfl rfl (by simp) rfl

/-- C3: on every run of the session block of the provisioning handler either a
canonical user and its success ledger row become durable together, or the user
table is unchanged and at most one error ledger row was committed (in its own
transaction); moreover a domain failure with working ledger storage and no
prior dedup row always rolls the user back and commits exactly the classified
error row. -/
theorem saga_atomicity (db : UDB) (req : UserCreateRequest) (fid : Nat)
    (cf lf : Option String) (r0 : UserCreatedResponse) :
    ((∃ u : User,
        (user_session_work db req fid cf lf r0).1.users = db.users ++ [u]
        ∧ (user_session_work db req fid cf lf r0).1.ledger
            = db.ledger ++ [successEntry req.message_id u.id])
      ∨ ((user_session_work db req fid cf lf r0).1.users = db.users
          ∧ ((user_session_work db req fid cf lf r0).1.ledger = db.ledger
             ∨ ∃ e, (user_session_work db req fid cf lf r0).1.ledger
                 = db.ledger ++ [errorEntry req.message_id (classify_error e) e])))
    ∧ (∀ e, cf = some e → lf = none →
        check_message_processed db.ledger req.message_id USER_CREATE_QUEUE = none →
        user_session_work db req fid cf lf r0
          = ({ users := db.users,
               ledger := db.ledger ++ [errorEntry req.message_id (classify_error e) e] },
             { r0 with status := classify_error e, error_message := some e })) := by
  rcases hchk : check_message_processed db.ledger req.message_id USER_CREATE_QUEUE with _ | pm
  · cases cf with
    | none =>
        refine ⟨?_, ?_⟩
        · cases hany : db.users.any (fun u => u.username == req.username) with
          | false =>
              cases lf with
              | none =>
                  refine Or.inl ⟨{ id := fid, username := req.username }, ?_, ?_⟩ <;>
                    simp [user_session_work, hchk, user_create, hany, successEntry,
                          save_processed_message]
              | some e =>
                  refine Or.inr ⟨?_, Or.inl ?_⟩ <;>
                    simp [user_session_work, hchk, user_create, hany]
          | true =>
              cases lf with
              | none =>
                  refine Or.inr ⟨?_, Or.inr
                    ⟨"duplicate username: users.username unique constraint violated", ?_⟩⟩ <;>
                    simp [user_session_work, hchk, user_create, hany, errorEntry,
                          save_processed_message]
              | some e =>
                  refine Or.inr ⟨?_, Or.inl ?_⟩ <;>
                    simp [user_session_work, hchk, user_create, hany]
        · intro e he
          exact absurd he (by simp)
    | some e =>
        cases lf with
        | none =>
            refine ⟨Or.inr ⟨?_, Or.inr ⟨e, ?_⟩⟩, ?_⟩
            · simp [user_session_work, hchk]
            · simp [user_session_work, hchk, errorEntry, save_processed_message]
            · intro e2 he2 hlf hchk2
              have he : e2 = e := by
                have := he2.symm
                injection this
              subst he
              simp [user_session_work, hchk, errorEntry, save_processed_message]
        | some f =>
            refine ⟨Or.inr ⟨?_, Or.inl ?_⟩, ?_⟩
            · simp [user_session_work, hchk]
            · simp [user_session_work, hchk]
            · intro e2 he2 hlf
              exact absurd hlf (by simp)
  · refine ⟨Or.inr ⟨?_, Or.inl ?_⟩, ?_⟩
    · simp [user_session_work, hchk]
    · simp [user_session_work, hchk]
    · intro e he hlf hchk2
      exact Option.noConfusion hchk2

/-- C3 witness: a domain failure at creation commits only the classified error
ledger row in its own transaction, leaving the user table untouched. -/
theorem saga_atomicity_witness :
    user_session_work { users := [], ledger := [] } { message_id := 40, username := "erin" } 6
        (some "database connection refused") none
        { message_id := 41, request_id := 40, status := .unknown_error, error_message := none,
          user_id := none, username := "erin" }
      = ({ users := [],
           ledger := [errorEntry 40 UserCreationStatus.database_error
             "database connection refused"] },
         { message_id := 41, request_id := 40, status := UserCreationStatus.database_error,
           error_message := some "database connection refused", user_id := none,
           username := "erin" }) :=
  (saga_atomicity { users := [], ledger := [] } { message_id := 40, username := "erin" } 6
      (some "database connection refused") none
      { message_id := 41, request_id := 40, status := .unknown_error, error_message := none,
        user_id := none, username := "erin" }).2
    "database connection refused" rfl rfl rfl

/-- Replayed response of a success ledger row: success status and the stored
canonical id, addressed with the data of the incoming request. -/
theorem replay_response_success (pm : PMsgU) (r0 : UserCreatedResponse) (rd : RDataU) (v : Nat)
    (hrd : pm.result_data = some rd) (hv : rd.user_id = some v) (hs : pm.status = "success") :
    (replay_response pm r0).status = .success ∧ (replay_response pm r0).user_id = some v
    ∧ (replay_response pm r0).username = r0.username := by
  cases hrs : rd.status <;> simp [replay_response, hrd, hv, hrs, hs]

/-- Replayed response of a non-success ledger row is never a success when the
initial response is not one and the stored result status is not success. -/
theorem replay_response_nonsuccess (pm : PMsgU) (r0 : UserCreatedResponse)
    (h0 : r0.status ≠ .success) (hs : pm.status ≠ "success")
    (herr : ∀ rd, pm.result_data = some rd → rd.status ≠ some .success) :
    (replay_response pm r0).status ≠ .success := by
  rcases hrd : pm.result_data with _ | rd
  · simp [replay_response, hrd, hs, h0]
  · rcases hrs : rd.status with _ | st
    · rcases hu : rd.user_id <;> simp [replay_response, hrd, hrs, hu, hs, h0]
    · have hst : st ≠ .success := fun h => herr rd hrd (by rw [hrs, h])
      rcases hu : rd.user_id <;> simp [replay_response, hrd, hrs, hu, hs, hst]

/-- Effect of the identity completion handler on the identity records: either
they are untouched, or the message is a success with a canonical id and
exactly the first record with its username receives that id. -/
theorem handle_a_cases (resp : UserCreatedResponse) (db : ADB) (af : Option String) :
    (handle_user_created_message (.ok resp) db af).1.auth_users = db.auth_users
    ∨ ∃ uid pre b post,
        resp.status = .success ∧ resp.user_id = some uid
        ∧ db.auth_users = pre ++ b :: post ∧ b.username = resp.username
        ∧ (∀ x ∈ pre, x.username ≠ resp.username)
        ∧ (handle_user_created_message (.ok resp) db af).1.auth_users
            = pre ++ { b with user_id := some uid } :: post := by
  simp only [handle_user_created_message, auth_handler_body, auth_try, message_process]
  cases hst : resp.status <;> cases hu : resp.user_id <;>
    try { left; cases af <;> simp [auth_else_branch] }
  case success.some uid =>
    rcases hchk : check_message_processed db.ledger resp.message_id USER_CREATED_QUEUE
      with _ | pm
    · cases af with
      | some e => left; simp [auth_session_work, hchk]
      | none =>
          rcases update_user_id_cases db.auth_users resp.username uid with
            ⟨heq, _⟩ | ⟨pre, b, post, hsplit, hb, hpre, heq⟩
          · left; simp [auth_session_work, hchk, heq]
          · right
            refine ⟨uid, pre, b, post, rfl, rfl, hsplit, hb, hpre, ?_⟩
            simp [auth_session_work, hchk, heq]
    · left; simp [auth_session_work, hchk]

/-- The system invariant survives extending the broker queue with fresh-id
requests and the identity table with fresh-id blank records. -/
theorem sysInv_extend (s : Sys) (hinv : SysInv s) (reqs : List UserCreateRequest)
    (aus : List AuthUser) (lg : List PMsgA)
    (hreq : ∀ r ∈ s.createQ, ∀ r2 ∈ reqs, r.message_id ≠ r2.message_id)
    (hreqp : List.Pairwise (fun r r2 : UserCreateRequest => r.message_id ≠ r2.message_id) reqs)
    (hau : ∀ a ∈ s.authDb.auth_users, ∀ b ∈ aus, a.id ≠ b.id)
    (haup : List.Pairwise (fun a b : AuthUser => a.id ≠ b.id) aus)
    (haun : ∀ a ∈ aus, a.user_id = none) :
    SysInv { s with
      authDb := { auth_users := s.authDb.auth_users ++ aus, ledger := lg },
      createQ := s.createQ ++ reqs } := by
  obtain ⟨I1, I2, I3, I4, I5, I6⟩ := hinv
  refine ⟨I1, ?_, ?_, ?_, ?_, ?_⟩
  · exact List.pairwise_append.mpr ⟨I2, haup, hau⟩
  · exact List.pairwise_append.mpr ⟨I3, hreqp, hreq⟩
  · exact I4
  · intro a ha v hv
    rcases List.mem_append.mp ha with h | h
    · exact I5 a h v hv
    · rw [haun a h] at hv
      exact Option.noConfusion hv
  · intro pm hpm
    rcases I6 pm hpm with ⟨hq, hsucc, herr⟩
    refine ⟨hq, ?_, herr⟩
    intro hs
    rcases hsucc hs with ⟨rd, hrd, v, hv, req, hreqmem, hmid, cu, hcu, hn, hi⟩
    exact ⟨rd, hrd, v, hv, req, List.mem_append_left _ hreqmem, hmid, cu, hcu, hn, hi⟩

/-- The system invariant survives a provisioning-side step that keeps the user
table, appends only non-success ledger rows and publishes only non-success
completions. -/
theorem sysInv_nonsuccess_step (s : Sys) (hinv : SysInv s) (newents : List PMsgU)
    (resps : List UserCreatedResponse)
    (hre : ∀ resp ∈ resps, resp.status ≠ .success)
    (hent : ∀ pm ∈ newents, pm.source_queue = USER_CREATE_QUEUE ∧ pm.status ≠ "success"
        ∧ ∀ rd, pm.result_data = some rd → rd.status ≠ some .success) :
    SysInv { s with
      userDb := { users := s.userDb.users, ledger := s.userDb.ledger ++ newents },
      createdQ := s.createdQ ++ resps } := by
  obtain ⟨I1, I2, I3, I4, I5, I6⟩ := hinv
  refine ⟨I1, I2, I3, ?_, I5, ?_⟩
  · intro resp hr hs
    rcases List.mem_append.mp hr with h | h
    · exact I4 resp h hs
    · exact absurd hs (hre resp h)
  · intro pm hpm
    rcases List.mem_append.mp hpm with h | h
    · exact I6 pm h
    · rcases hent pm h with ⟨hq, hst, herr⟩
      exact ⟨hq, fun hs => absurd hs hst, fun _ => herr⟩

/-- The system invariant survives the fresh-success provisioning step: the new
canonical user, its success ledger row and the success completions it
publishes all agree on the new canonical id. -/
theorem sysInv_success_step (s : Sys) (hinv : SysInv s) (req : UserCreateRequest)
    (hreqm : req ∈ s.createQ) (fid : Nat)
    (hfree : ∀ cu ∈ s.userDb.users, cu.username ≠ req.username)
    (resps : List UserCreatedResponse) (rm : Nat)
    (hre : ∀ resp ∈ resps, resp = successResp rm req.message_id fid req.username) :
    SysInv { s with
      userDb := udbAfter s.userDb req.message_id fid req.username,
      createdQ := s.createdQ ++ resps } := by
  obtain ⟨I1, I2, I3, I4, I5, I6⟩ := hinv
  have husers : (udbAfter s.userDb req.message_id fid req.username).users
      = s.userDb.users ++ [{ id := fid, username := req.username }] := rfl
  refine ⟨?_, I2, I3, ?_, ?_, ?_⟩
  · rw [husers]
    refine List.pairwise_append.mpr ⟨I1, List.pairwise_singleton _ _, ?_⟩
    intro a ha b hb
    rw [List.mem_singleton.mp hb]
    exact hfree a ha
  · intro resp hr hs
    rcases List.mem_append.mp hr with h | h
    · rcases I4 resp h hs with ⟨v, hv, cu, hcu, hn, hi⟩
      exact ⟨v, hv, cu, List.mem_append_left _ hcu, hn, hi⟩
    · rw [hre resp h]
      refine ⟨fid, rfl, { id := fid, username := req.username }, ?_, rfl, rfl⟩
      rw [husers]
      exact List.mem_append_right _ (List.mem_singleton.mpr rfl)
  · intro a ha v hv
    rcases I5 a ha v hv with ⟨cu, hcu, hn, hi⟩
    exact ⟨cu, List.mem_append_left _ hcu, hn, hi⟩
  · intro pm hpm
    rcases List.mem_append.mp hpm with h | h
    · rcases I6 pm h with ⟨hq, hsucc, herr⟩
      refine ⟨hq, ?_, herr⟩
      intro hs
      rcases hsucc hs with ⟨rd, hrd, v, hv, req2, hreq2, hmid, cu, hcu, hn, hi⟩
      exact ⟨rd, hrd, v, hv, req2, hreq2, hmid, cu, List.mem_append_left _ hcu, hn, hi⟩
    · rw [List.mem_singleton.mp h]
      refine ⟨rfl, ?_, ?_⟩
      · intro _
        refine ⟨_, rfl, fid, rfl, req, hreqm, rfl, { id := fid, username := req.username }, ?_,
          rfl, rfl⟩
        rw [husers]
        exact List.mem_append_right _ (List.mem_singleton.mpr rfl)
      · intro hs
        exact absurd rfl hs

/-- The system invariant survives a replay step: the provisioning store is
untouched and the republished completion is reconstructed from a ledger row
already covered by the invariant. -/
theorem sysInv_replay_step (s : Sys) (hinv : SysInv s) (req : UserCreateRequest)
    (hreqm : req ∈ s.createQ) (pm : PMsgU)
    (hfound : check_message_processed s.userDb.ledger req.message_id USER_CREATE_QUEUE
        = some pm)
    (r0 : UserCreatedResponse) (h0st : r0.status = .unknown_error)
    (h0u : r0.username = req.username)
    (resps : List UserCreatedResponse)
    (hre : ∀ x ∈ resps, x = replay_response pm r0) :
    SysInv { s with createdQ := s.createdQ ++ resps } := by
  obtain ⟨I1, I2, I3, I4, I5, I6⟩ := hinv
  have hpmmem : pm ∈ s.userDb.ledger := List.mem_of_find?_eq_some hfound
  have hpmprop := List.find?_some hfound
  rw [Bool.and_eq_true, beq_iff_eq, beq_iff_eq] at hpmprop
  refine ⟨I1, I2, I3, ?_, I5, I6⟩
  intro resp hr hs
  rcases List.mem_append.mp hr with h | h
  · exact I4 resp h hs
  · rw [hre resp h] at hs ⊢
    rcases I6 pm hpmmem with ⟨hq, hsucc, herr⟩
    by_cases hpms : pm.status = "success"
    · rcases hsucc hpms with ⟨rd, hrd, v, hv, req2, hreq2, hmid, cu, hcu, hn, hi⟩
      have req2eq : req2 = req :=
        pairwise_key_eq UserCreateRequest.message_id s.createQ I3 req2 hreq2 req hreqm
          (by rw [hmid, hpmprop.1])
      rcases replay_response_success pm r0 rd v hrd hv hpms with ⟨hrs, hru, hrn⟩
      refine ⟨v, hru, cu, hcu, ?_, hi⟩
      rw [hrn, h0u, hn, req2eq]
    · have := replay_response_nonsuccess pm r0 (by rw [h0st]; simp) hpms (herr hpms)
      exact absurd hs this

/-- Closed form of a request delivery step given the session-block outcome. -/
theorem applyOp_dreq_eq (s : Sys) (i fid rm : Nat) (cf lf : Option String)
    (pub : Except String Bool) (req : UserCreateRequest) (hq : s.createQ.get? i = some req)
    (db2 : UDB) (resp : UserCreatedResponse)
    (hsw : user_session_work s.userDb req fid cf lf (response_init rm req) = (db2, resp)) :
    applyOp s (.dreq i fid rm cf lf pub)
      = { s with
          userDb := db2,
          createdQ := s.createdQ ++ (match pub with | .ok true => [resp] | _ => []) } := by
  simp only [applyOp, hq]
  simp only [handle_user_create_message, user_handler_body, user_try, message_process]
  rw [hsw]
  rcases pub with e | b
  · simp
  · cases b <;> simp

/-- Membership in the published-completions list of a delivery step. -/
theorem mem_pub_list {α : Type} (pub : Except String Bool) (resp : α) (x : α)
    (hx : x ∈ (match pub with | .ok true => [resp] | _ => ([] : List α))) : x = resp := by
  rcases pub with e | b
  · simp at hx
  · cases b
    · simp at hx
    · simpa using hx

/-- Setting the user_id of one row keeps the row ids pairwise distinct. -/
theorem pairwise_id_update (pre post : List AuthUser) (b : AuthUser) (v : Nat)
    (hp : List.Pairwise (fun x y : AuthUser => x.id ≠ y.id) (pre ++ b :: post)) :
    List.Pairwise (fun x y : AuthUser => x.id ≠ y.id)
      (pre ++ { b with user_id := some v } :: post) := by
  rw [List.pairwise_append] at hp ⊢
  rcases hp with ⟨h1, h2, h3⟩
  rw [List.pairwise_cons] at h2 ⊢
  refine ⟨h1, ⟨h2.1, h2.2⟩, ?_⟩
  intro x hx y hy
  rcases List.mem_cons.mp hy with rfl | hy2
  · exact h3 x hx b (List.mem_cons_self b post)
  · exact h3 x hx y (List.mem_cons_of_mem b hy2)

/-- The system invariant is preserved by the HTTP creation step. -/
theorem sysInv_http (s : Sys) (hinv : SysInv s) (u : String) (m fid : Nat)
    (pub : Except String Bool) (hv : validOp s (.http u m fid pub)) :
    SysInv (applyOp s (.http u m fid pub)) := by
  obtain ⟨hm, hfid⟩ := hv
  have hreq1 : ∀ r ∈ s.createQ, ∀ r2 ∈ [(⟨m, u⟩ : UserCreateRequest)],
      r.message_id ≠ r2.message_id := by
    intro r hr r2 hr2
    rw [List.mem_singleton.mp hr2]
    exact hm r hr
  have hau1 : ∀ a ∈ s.authDb.auth_users, ∀ b ∈ [(⟨fid, u, none⟩ : AuthUser)],
      a.id ≠ b.id := by
    intro a ha b hb
    rw [List.mem_singleton.mp hb]
    exact hfid a ha
  unfold applyOp
  rcases pub with e | b
  · simp only [create_user]
    simpa using sysInv_extend s hinv [] [] s.authDb.ledger (by simp) (by simp)
      (by simp) (by simp) (by simp)
  · rcases hc : s.authDb.auth_users.any (fun a => a.username == u) with _ | _
    · have hcreate : create s.authDb.auth_users u fid
          = .ok { id := fid, username := u, user_id := none } := by
        simp [create, hc]
      cases b
      · simp only [create_user, hcreate]
        simpa using sysInv_extend s hinv [] [{ id := fid, username := u, user_id := none }]
          s.authDb.ledger (by simp) (by simp) hau1 (List.pairwise_singleton _ _) (by simp)
      · simp only [create_user, hcreate]
        simpa using sysInv_extend s hinv [{ message_id := m, username := u }]
          [{ id := fid, username := u, user_id := none }] s.authDb.ledger hreq1
          (List.pairwise_singleton _ _) hau1 (List.pairwise_singleton _ _) (by simp)
    · have hcreate : create s.authDb.auth_users u fid
          = .error "duplicate key value violates unique constraint on auth_users.username" := by
        simp [create, hc]
      cases b
      · simp only [create_user, hcreate]
        simpa using sysInv_extend s hinv [] [] s.authDb.ledger (by simp) (by simp)
          (by simp) (by simp) (by simp)
      · simp only [create_user, hcreate]
        simpa using sysInv_extend s hinv [{ message_id := m, username := u }] []
          s.authDb.ledger hreq1 (List.pairwise_singleton _ _) (by simp) (by simp) (by simp)


/-- The error ledger row of the provisioning handler is never a success row. -/
theorem errorEntry_ok (m : Nat) (e : String) :
    (errorEntry m (classify_error e) e).source_queue = USER_CREATE_QUEUE
    ∧ (errorEntry m (classify_error e) e).status ≠ "success"
    ∧ ∀ rd, (errorEntry m (classify_error e) e).result_data = some rd →
        rd.status ≠ some .success := by
  refine ⟨rfl, by simp [errorEntry], ?_⟩
  intro rd hrd
  have h := Option.some.inj hrd
  rw [← h]
  intro hcon
  exact classify_error_ne_success e (Option.some.inj hcon)

/-- The classified error completion is never a success. -/
theorem error_resp_ne_success (rm : Nat) (req : UserCreateRequest) (e : String)
    (uid : Option Nat) (pub : Except String Bool) :
    ∀ x ∈ ((match pub with
      | .ok true => [error_resp rm req e uid]
      | _ => []) : List UserCreatedResponse), x.status ≠ .success := by
  intro x hx
  rw [mem_pub_list pub _ x hx]
  simp only [error_resp]
  exact classify_error_ne_success e

/-- The system invariant is preserved by a request delivery step. -/
theorem sysInv_dreq (s : Sys) (hinv : SysInv s) (i fid rm : Nat) (cf lf : Option String)
    (pub : Except String Bool) : SysInv (applyOp s (.dreq i fid rm cf lf pub)) := by
  rcases hq : s.createQ.get? i with _ | req
  · simp only [applyOp, hq]
    exact hinv
  · have hreqm : req ∈ s.createQ := List.get?_mem hq
    rcases hchk : check_message_processed s.userDb.ledger req.message_id USER_CREATE_QUEUE
      with _ | pm
    · rcases cf with _ | e
      · rcases hany : s.userDb.users.any (fun x => x.username == req.username) with _ | _
        · have hfree : ∀ cu ∈ s.userDb.users, cu.username ≠ req.username := by
            intro cu hcu
            have h2 := List.any_eq_false.mp hany cu hcu
            simpa using h2
          rcases lf with _ | f
          · have hsw : user_session_work s.userDb req fid none none (response_init rm req)
                = (udbAfter s.userDb req.message_id fid req.username,
                   successResp rm req.message_id fid req.username) := by
              simp [user_session_work, hchk, user_create, hany, udbAfter, successEntry,
                    successResp, response_init, save_processed_message]
            rw [applyOp_dreq_eq s i fid rm none none pub req hq _ _ hsw]
            exact sysInv_success_step s hinv req hreqm fid hfree _ rm
              (fun x hx => mem_pub_list pub _ x hx)
          · have hsw : user_session_work s.userDb req fid none (some f) (response_init rm req)
                = (s.userDb, error_resp rm req f (some fid)) := by
              simp [user_session_work, hchk, user_create, hany, response_init, error_resp]
            rw [applyOp_dreq_eq s i fid rm none (some f) pub req hq _ _ hsw]
            simpa using sysInv_nonsuccess_step s hinv [] _
              (error_resp_ne_success rm req f (some fid) pub) (by simp)
        · rcases lf with _ | f
          · have hsw : user_session_work s.userDb req fid none none (response_init rm req)
                = ({ users := s.userDb.users,
                     ledger := s.userDb.ledger ++ [errorEntry req.message_id
                       (classify_error
                         "duplicate username: users.username unique constraint violated")
                       "duplicate username: users.username unique constraint violated"] },
                   error_resp rm req
                     "duplicate username: users.username unique constraint violated" none) := by
              simp [user_session_work, hchk, user_create, hany, response_init, errorEntry,
                    error_resp, save_processed_message]
            rw [applyOp_dreq_eq s i fid rm none none pub req hq _ _ hsw]
            have hent : ∀ pm2 ∈ [errorEntry req.message_id
                (classify_error "duplicate username: users.username unique constraint violated")
                "duplicate username: users.username unique constraint violated"],
                pm2.source_queue = USER_CREATE_QUEUE ∧ pm2.status ≠ "success"
                ∧ ∀ rd, pm2.result_data = some rd → rd.status ≠ some .success := by
              intro pm2 hpm2
              rw [List.mem_singleton.mp hpm2]
              exact errorEntry_ok _ _
            exact sysInv_nonsuccess_step s hinv _ _
              (error_resp_ne_success rm req _ none pub) hent
          · have hsw : user_session_work s.userDb req fid none (some f) (response_init rm req)
                = (s.userDb, error_resp rm req
                    "duplicate username: users.username unique constraint violated" none) := by
              simp [user_session_work, hchk, user_create, hany, response_init, error_resp]
            rw [applyOp_dreq_eq s i fid rm none (some f) pub req hq _ _ hsw]
            simpa using sysInv_nonsuccess_step s hinv [] _
              (error_resp_ne_success rm req _ none pub) (by simp)
      · rcases lf with _ | f
        · have hsw : user_session_work s.userDb req fid (some e) none (response_init rm req)
              = ({ users := s.userDb.users,
                   ledger := s.userDb.ledger ++ [errorEntry req.message_id
                     (classify_error e) e] },
                 error_resp rm req e none) := by
            simp [user_session_work, hchk, response_init, errorEntry, error_resp,
                  save_processed_message]
          rw [applyOp_dreq_eq s i fid rm (some e) none pub req hq _ _ hsw]
          have hent : ∀ pm2 ∈ [errorEntry req.message_id (classify_error e) e],
              pm2.source_queue = USER_CREATE_QUEUE ∧ pm2.status ≠ "success"
              ∧ ∀ rd, pm2.result_data = some rd → rd.status ≠ some .success := by
            intro pm2 hpm2
            rw [List.mem_singleton.mp hpm2]
            exact errorEntry_ok _ _
          exact sysInv_nonsuccess_step s hinv _ _
            (error_resp_ne_success rm req e none pub) hent
        · have hsw : user_session_work s.userDb req fid (some e) (some f) (response_init rm req)
              = (s.userDb, error_resp rm req e none) := by
            simp [user_session_work, hchk, response_init, error_resp]
          rw [applyOp_dreq_eq s i fid rm (some e) (some f) pub req hq _ _ hsw]
          simpa using sysInv_nonsuccess_step s hinv [] _
            (error_resp_ne_success rm req e none pub) (by simp)
    · have hsw : user_session_work s.userDb req fid cf lf (response_init rm req)
          = (s.userDb, replay_response pm (response_init rm req)) := by
        simp [user_session_work, hchk]
      rw [applyOp_dreq_eq s i fid rm cf lf pub req hq _ _ hsw]
      exact sysInv_replay_step s hinv req hreqm pm hchk (response_init rm req) rfl rfl _
        (fun x hx => mem_pub_list pub _ x hx)

/-- The system invariant is preserved by a completion delivery step. -/
theorem sysInv_dcomp (s : Sys) (hinv : SysInv s) (i : Nat) (af : Option String) :
    SysInv (applyOp s (.dcomp i af)) := by
  rcases hq : s.createdQ.get? i with _ | resp
  · simp only [applyOp, hq]
    exact hinv
  · simp only [applyOp, hq]
    obtain ⟨I1, I2, I3, I4, I5, I6⟩ := hinv
    have hrespm : resp ∈ s.createdQ := List.get?_mem hq
    rcases handle_a_cases resp s.authDb af with
      heq | ⟨uid, pre, b, post, hst, hu, hsplit, hbname, hpre, heq⟩
    · refine ⟨I1, ?_, I3, I4, ?_, I6⟩
      · rw [heq]
        exact I2
      · intro a ha v hv
        rw [heq] at ha
        exact I5 a ha v hv
    · refine ⟨I1, ?_, I3, I4, ?_, I6⟩
      · rw [heq]
        apply pairwise_id_update
        rw [← hsplit]
        exact I2
      · intro a ha v hv
        rw [heq] at ha
        rcases List.mem_append.mp ha with hL | hR
        · refine I5 a ?_ v hv
          rw [hsplit]
          exact List.mem_append_left _ hL
        · rcases List.mem_cons.mp hR with rfl | hpost
          · rcases I4 resp hrespm hst with ⟨v2, hv2, cu, hcu, hn, hi⟩
            have hv2u : v2 = uid := by
              rw [hu] at hv2
              exact (Option.some.inj hv2).symm
            have hvu : v = uid := by
              have : some uid = some v := hv
              exact (Option.some.inj this).symm
            refine ⟨cu, hcu, ?_, ?_⟩
            · rw [hn, ← hbname]
            · rw [hi, hv2u, hvu]
          · refine I5 a ?_ v hv
            rw [hsplit]
            exact List.mem_append_right _ (List.mem_cons_of_mem b hpost)

/-- The empty system satisfies the invariant. -/
theorem sysInv_init : SysInv sys0 := by
  refine ⟨?_, ?_, ?_, ?_, ?_, ?_⟩ <;> simp [sys0]

/-- The system invariant is preserved by every valid operation. -/
theorem sysInv_step (s : Sys) (hinv : SysInv s) (op : SysOp) (hv : validOp s op) :
    SysInv (applyOp s op) := by
  cases op with
  | http u m fid pub => exact sysInv_http s hinv u m fid pub hv
  | dreq i fid rm cf lf pub => exact sysInv_dreq s hinv i fid rm cf lf pub
  | dcomp i af => exact sysInv_dcomp s hinv i af

/-- Every reachable system state satisfies the invariant. -/
theorem reach_inv (s : Sys) (h : Reach s) : SysInv s := by
  induction h with
  | init => exact sysInv_init
  | step op hr hv ih => exact sysInv_step _ ih op hv

/-- One valid step never unsets or changes a set canonical id on an identity
record, tracking records by their primary key. -/
theorem user_id_mono_step (s : Sys) (hinv : SysInv s) (op : SysOp) (hv : validOp s op)
    (a : AuthUser) (ha : a ∈ s.authDb.auth_users) (a2 : AuthUser)
    (ha2 : a2 ∈ (applyOp s op).authDb.auth_users) (hid : a.id = a2.id) (v : Nat)
    (hset : a.user_id = some v) : a2.user_id = some v := by
  obtain ⟨I1, I2, I3, I4, I5, I6⟩ := hinv
  have hkey := pairwise_key_eq AuthUser.id s.authDb.auth_users I2
  cases op with
  | http u m fid pub =>
      obtain ⟨hm, hfid⟩ := hv
      simp only [applyOp] at ha2
      rcases pub with e | b
      · simp only [create_user] at ha2
        rw [← hkey a ha a2 ha2 hid, hset]
      · rcases hc : s.authDb.auth_users.any (fun x => x.username == u) with _ | _
        · have hcreate : create s.authDb.auth_users u fid
              = .ok { id := fid, username := u, user_id := none } := by simp [create, hc]
          simp only [create_user, hcreate] at ha2
          rcases List.mem_append.mp ha2 with h | h
          · rw [← hkey a ha a2 h hid, hset]
          · exfalso
            apply hfid a ha
            rw [hid, List.mem_singleton.mp h]
        · have hcreate : create s.authDb.auth_users u fid = .error
              "duplicate key value violates unique constraint on auth_users.username" := by
            simp [create, hc]
          simp only [create_user, hcreate] at ha2
          rw [← hkey a ha a2 ha2 hid, hset]
  | dreq i fid rm cf lf pub =>
      rcases hq : s.createQ.get? i with _ | req <;> simp only [applyOp, hq] at ha2 <;>
        rw [← hkey a ha a2 ha2 hid, hset]
  | dcomp i af =>
      rcases hq : s.createdQ.get? i with _ | resp
      · simp only [applyOp, hq] at ha2
        rw [← hkey a ha a2 ha2 hid, hset]
      · simp only [applyOp, hq] at ha2
        have hrespm : resp ∈ s.createdQ := List.get?_mem hq
        rcases handle_a_cases resp s.authDb af with
          heq | ⟨uid, pre, b, post, hst, hu, hsplit, hbname, hpre, heq⟩
        · rw [heq] at ha2
          rw [← hkey a ha a2 ha2 hid, hset]
        · rw [heq] at ha2
          rcases List.mem_append.mp ha2 with hL | hR
          · have haold : a2 ∈ s.authDb.auth_users := by
              rw [hsplit]
              exact List.mem_append_left _ hL
            rw [← hkey a ha a2 haold hid, hset]
          · rcases List.mem_cons.mp hR with heq2 | hpost
            · have hbmem : b ∈ s.authDb.auth_users := by
                rw [hsplit]
                exact List.mem_append_right _ (List.mem_cons_self b post)
              have hab : a = b := by
                apply hkey a ha b hbmem
                rw [hid, heq2]
              have hbset : b.user_id = some v := by
                rw [← hab]
                exact hset
              rcases I5 b hbmem v hbset with ⟨cu1, hcu1, hn1, hi1⟩
              rcases I4 resp hrespm hst with ⟨v2, hv2, cu2, hcu2, hn2, hi2⟩
              have hv2u : v2 = uid := by
                rw [hu] at hv2
                exact (Option.some.inj hv2).symm
              have hcueq : cu1 = cu2 := by
                apply pairwise_key_eq User.username s.userDb.users I1 cu1 hcu1 cu2 hcu2
                rw [hn1, hn2, hbname]
              have hveq : v = uid := by
                rw [← hi1, hcueq, hi2, hv2u]
              rw [heq2, hveq]
            · have haold : a2 ∈ s.authDb.auth_users := by
                rw [hsplit]
                exact List.mem_append_right _ (List.mem_cons_of_mem b hpost)
              rw [← hkey a ha a2 haold hid, hset]

/-- C2: along every valid operation of the core (external creation requests,
request deliveries and redeliveries, completion deliveries and redeliveries)
from any reachable state, the canonical id of an identity record only ever
transitions from null to a value and never changes once set: a record carrying
some v still carries exactly some v after the step. -/
theorem canonical_user_id_monotonic (s : Sys) (hs : Reach s) (op : SysOp)
    (hv : validOp s op) (a : AuthUser) (ha : a ∈ s.authDb.auth_users) (a2 : AuthUser)
    (ha2 : a2 ∈ (applyOp s op).authDb.auth_users) (hid : a.id = a2.id) (v : Nat)
    (hset : a.user_id = some v) : a2.user_id = some v :=
  user_id_mono_step s (reach_inv s hs) op hv a ha a2 ha2 hid v hset

/-- C2 witness: a concrete run that provisions alice and then redelivers her
completion; the set canonical id 10 survives the redelivery step. -/
theorem canonical_user_id_monotonic_witness :
    validOp (applyOp (applyOp (applyOp sys0 (.http "alice" 1 2 (.ok true)))
        (.dreq 0 10 11 none none (.ok true))) (.dcomp 0 none)) (.dcomp 0 none)
    ∧ (⟨2, "alice", some 10⟩ : AuthUser)
        ∈ (applyOp (applyOp (applyOp sys0 (.http "alice" 1 2 (.ok true)))
            (.dreq 0 10 11 none none (.ok true))) (.dcomp 0 none)).authDb.auth_users
    ∧ (⟨2, "alice", some 10⟩ : AuthUser)
        ∈ (applyOp (applyOp (applyOp (applyOp sys0 (.http "alice" 1 2 (.ok true)))
            (.dreq 0 10 11 none none (.ok true))) (.dcomp 0 none))
            (.dcomp 0 none)).authDb.auth_users
    ∧ (⟨2, "alice", some 10⟩ : AuthUser).user_id = some 10 :=
  ⟨trivial, by decide, by decide,
    canonical_user_id_monotonic _
      (Reach.step (.dcomp 0 none)
        (Reach.step (.dreq 0 10 11 none none (.ok true))
          (Reach.step (.http "alice" 1 2 (.ok true)) Reach.init
            (by constructor <;> simp [sys0]))
          trivial)
        trivial)
      (.dcomp 0 none) trivial _ (by decide) _ (by decide) rfl 10 rfl⟩
